import Mathlib

/-!
Shallow embedding of `lib/wasix/src/os/task/process.rs` (wasmer, WASIX
process/thread lifecycle management): the checkpoint/snapshot barrier, the
CPU run-token/backoff scheduler, signal routing, and the child-join
operations of `WasiProcess`.

Durations and monotonic timestamps are modelled in nanoseconds as `Nat`
(`Duration::from_millis(1)` is `1000000`).  `SnapshotTrigger` (an external
type) is modelled as a `Nat` tag.  Hash maps keyed by a monotonically
increasing seed are modelled as lists of keys in insertion order.
-/

/-- `WasiProcessCheckpoint` from process.rs: either normal execution or a
requested snapshot carrying its trigger. -/
inductive WasiProcessCheckpoint where
  | execute
  | snapshot (trigger : Nat)
deriving DecidableEq, Repr

/-- Operations that write the `checkpoint` field of `WasiProcessInner`:
an external `WasiProcessInner::checkpoint(for_what)` request, the
last-arriving thread completing the snapshot inside `maybe_checkpoint`
(`guard.checkpoint = Execute` after a successful
`save_memory_and_snapshot`), or the trap path of a failed save (which
returns without touching the field). -/
inductive CheckpointOp where
  | request (forWhat : WasiProcessCheckpoint)
  | barrierComplete
  | barrierFail
deriving DecidableEq, Repr

/-- Transition of the `checkpoint` field of `WasiProcessInner` under one
operation.  `WasiProcessInner::checkpoint` assigns `for_what`
unconditionally; the barrier resets to `Execute` on success and leaves the
field unchanged when the snapshot write fails. -/
def checkpoint_transition : WasiProcessCheckpoint → CheckpointOp → WasiProcessCheckpoint
  | _, .request forWhat => forWhat
  | _, .barrierComplete => .execute
  | p, .barrierFail => p

/-- State of the checkpoint rendezvous: the `checkpoint` field plus the
set of thread ids currently blocked in the condvar wait
(`inner.1.wait(guard)`), in arrival order. -/
structure CkptBarrier where
  checkpoint : WasiProcessCheckpoint
  blocked : List Nat
deriving DecidableEq, Repr

/-- Outcome of one pass through the `maybe_checkpoint` rendezvous loop for
the calling thread. -/
inductive CkptOutcome where
  | notThisTime
  | blockedWait
  | completed
  | trapped (err : Nat)
deriving DecidableEq, Repr

/-- Result of one `maybe_checkpoint` pass: the new barrier state, the set
of threads woken by `notify_all`, the caller's `check_pointing` flag when
the pass ends, and the control-flow outcome. -/
structure CkptStepResult where
  state : CkptBarrier
  woken : List Nat
  selfCheckpointing : Bool
  outcome : CkptOutcome
deriving DecidableEq, Repr

/-- One pass of the `maybe_checkpoint` loop body in process.rs for thread
`tid`, given whether every other registered thread is already marked
check-pointing and the result of `save_memory_and_snapshot`.  With phase
`Execute` the call is a no-op (`NotThisTime`).  In phase `Snapshot`, the
caller marks itself check-pointing; if it is the last thread it performs
the snapshot write: on failure it calls `notify_all` and returns the trap
(leaving the phase and its own flag untouched), on success it clears its
flag, resets the phase to `Execute`, and calls `notify_all`.  Otherwise it
blocks on the condvar. -/
def maybe_checkpoint_step (s : CkptBarrier) (tid : Nat) (othersAllCp : Bool)
    (saveResult : Except Nat Unit) : CkptStepResult :=
  match s.checkpoint with
  | .execute => ⟨s, [], false, .notThisTime⟩
  | .snapshot _ =>
      if othersAllCp then
        match saveResult with
        | .error e => ⟨{ s with blocked := [] }, s.blocked, true, .trapped e⟩
        | .ok _ => ⟨⟨.execute, []⟩, s.blocked, false, .completed⟩
      else
        ⟨{ s with blocked := s.blocked ++ [tid] }, [], true, .blockedWait⟩

/-- State read by `WasiProcess::signal_process`: the `waiting` atomic
counter, the pids of the `children` list, and the tids of the thread
table. -/
structure SigState where
  waiting : Nat
  children : List Nat
  threads : List Nat
deriving DecidableEq, Repr

/-- Where `signal_process` delivers the signal: forwarded to every child
process, or delivered to every thread in the table. -/
inductive SignalRoute where
  | toChildren (pids : List Nat)
  | toThreads (tids : List Nat)
deriving DecidableEq, Repr

/-- `WasiProcess::signal_process` from process.rs: if the `waiting`
counter is positive, loop over the children calling
`child.signal_process(signal)` and return if that loop ran at least once
(`triggered`); otherwise fall through and signal every thread in the
table. -/
def signal_process (s : SigState) : SignalRoute :=
  if 0 < s.waiting then
    let triggered := !s.children.isEmpty
    if triggered then .toChildren s.children else .toThreads s.threads
  else .toThreads s.threads

/-- CPU-backoff bookkeeping fields of `WasiProcessInner`: the registered
waker ids (`cpu_backoff_wakers`, keys of the hash map in insertion order),
the id seed, the current backoff duration, the cool-off deadline, and the
two configured maxima.  All durations/timestamps are nanoseconds. -/
structure InnerB where
  cpu_backoff_wakers : List Nat
  cpu_backoff_waker_seed : Nat
  cpu_backoff_time : Nat
  cpu_run_cool_off : Nat
  max_cpu_backoff_time : Nat
  max_cpu_cool_off_time : Nat
deriving DecidableEq, Repr

/-- `CpuBackoffToken` from process.rs: the backoff duration captured at
acquisition and the (optional) id under which the token believes its waker
is registered. -/
structure CpuBackoffToken where
  cpu_backoff_time : Nat
  waker_id : Option Nat
deriving DecidableEq, Repr

/-- Result of `WasiProcess::acquire_cpu_run_token`: the incremented token
counter, the updated inner state, and the wakers that were woken
(`wake_by_ref` over the map before it is cleared). -/
structure RunTokenResult where
  cpu_run_tokens : Nat
  inner : InnerB
  woken : List Nat
deriving DecidableEq, Repr

/-- `WasiProcess::acquire_cpu_run_token` from process.rs: increments the
run-token counter, wakes and clears every registered backoff waker, and
resets `cpu_backoff_time` and `cpu_run_cool_off` to zero. -/
def acquire_cpu_run_token (tokens : Nat) (s : InnerB) : RunTokenResult :=
  ⟨tokens + 1,
   { s with cpu_backoff_wakers := [], cpu_backoff_time := 0, cpu_run_cool_off := 0 },
   s.cpu_backoff_wakers⟩

/-- `WasiProcess::acquire_cpu_backoff_token` from process.rs.  `r1` and
`r2` are the two loads of the `cpu_run_tokens` atomic (before and after
taking the process lock) and `now` is the monotonic clock reading.  The
call returns `none` when run tokens are held, when the cool-off deadline
is unset (it then arms it at `now + 1_000_000 * max_cool_off_millis`), or
when `now` has not passed the deadline; otherwise it raises a zero backoff
duration to 1 ms and returns a token for the current duration. -/
def acquire_cpu_backoff_token (r1 r2 now : Nat) (s : InnerB) :
    Option CpuBackoffToken × InnerB :=
  if 0 < r1 then (none, s)
  else if 0 < r2 then (none, s)
  else
    let s1 := if s.cpu_run_cool_off = 0
      then { s with cpu_run_cool_off := now + 1000000 * (s.max_cpu_cool_off_time / 1000000) }
      else s
    if now ≤ s1.cpu_run_cool_off then (none, s1)
    else
      let s2 := if s1.cpu_backoff_time = 0
        then { s1 with cpu_backoff_time := 1000000 }
        else s1
      (some ⟨s2.cpu_backoff_time, none⟩, s2)

/-- Poll outcome of a `CpuBackoffToken` future. -/
inductive PollOut where
  | ready
  | pending
deriving DecidableEq, Repr

/-- Result of polling a `CpuBackoffToken`: the token (with its `waker_id`
field as left by the `take()`), the updated inner state, and whether the
future resolved. -/
structure PollResult where
  tok : CpuBackoffToken
  inner : InnerB
  out : PollOut
deriving DecidableEq, Repr

/-- Tail of `CpuBackoffToken::poll` after the waker-id check: registers a
fresh waker id (`seed + 1`) in the map — the source never writes this id
back into `self.waker_id` — then polls the inner sleep future
(`waitReady`); when the sleep has elapsed and the stored backoff duration
still equals the token's captured one, the duration is doubled and clamped
to `max_cpu_backoff_time`. -/
def poll_register_and_wait (tok : CpuBackoffToken) (s : InnerB) (waitReady : Bool) :
    PollResult :=
  let id := s.cpu_backoff_waker_seed + 1
  let s1 := { s with cpu_backoff_waker_seed := id,
                     cpu_backoff_wakers := s.cpu_backoff_wakers ++ [id] }
  if waitReady then
    let s2 :=
      if tok.cpu_backoff_time = s1.cpu_backoff_time then
        let d := s1.cpu_backoff_time * 2
        { s1 with cpu_backoff_time :=
            if s1.max_cpu_backoff_time < d then s1.max_cpu_backoff_time else d }
      else s1
    ⟨tok, s2, .ready⟩
  else ⟨tok, s1, .pending⟩

/-- `CpuBackoffToken::poll` from process.rs: `self.waker_id.take()`; if an
id was present, remove it from the waker map, and if it was already gone
another actor woke us — resolve immediately; otherwise register a fresh
waker and wait (see `poll_register_and_wait`). -/
def CpuBackoffToken.poll (tok : CpuBackoffToken) (s : InnerB) (waitReady : Bool) :
    PollResult :=
  match tok.waker_id with
  | some wid =>
      if wid ∈ s.cpu_backoff_wakers then
        poll_register_and_wait { tok with waker_id := none }
          { s with cpu_backoff_wakers := s.cpu_backoff_wakers.filter (· ≠ wid) } waitReady
      else ⟨{ tok with waker_id := none }, s, .ready⟩
  | none => poll_register_and_wait tok s waitReady

/-- The `Drop` impl of `CpuBackoffToken` in process.rs: if `waker_id`
holds an id, remove it from the waker map; otherwise do nothing. -/
def CpuBackoffToken.drop (tok : CpuBackoffToken) (s : InnerB) : InnerB :=
  match tok.waker_id with
  | some wid => { s with cpu_backoff_wakers := s.cpu_backoff_wakers.filter (· ≠ wid) }
  | none => s

/-- Effect on the inner state of one backoff token of duration `t`
completing its wait: a fresh (never-before-polled) token is driven to
readiness. -/
def backoff_complete_step (s : InnerB) (t : Nat) : InnerB :=
  (CpuBackoffToken.poll ⟨t, none⟩ s true).inner

/-- Trace of the stored `cpu_backoff_time` across a sequence of backoff
token completions (each list element is the duration captured by the
completing token). -/
def backoff_time_trace (s : InnerB) : List Nat → List Nat
  | [] => [s.cpu_backoff_time]
  | t :: ts => s.cpu_backoff_time :: backoff_time_trace (backoff_complete_step s t) ts

/-- Errno values reached by the child-join code paths of process.rs. -/
inductive Errno where
  | child
  | canceled
deriving DecidableEq, Repr

/-- Exit code of a process: either a plain numeric code or one converted
from an `Errno` (as in `Errno::Canceled.into()`). -/
inductive ExitCode where
  | code (n : Nat)
  | errnoCode (e : Errno)
deriving DecidableEq, Repr

/-- The piece of `WasiRuntimeError` the join paths consult: its
best-effort `as_exit_code()` conversion. -/
structure WasiRuntimeError where
  as_exit_code : Option ExitCode
deriving DecidableEq, Repr

/-- Result of `WasiProcess::join` on a child. -/
abbrev JoinResult := Except WasiRuntimeError ExitCode

/-- Entry of the `children` list of `WasiProcessInner`: a child process,
identified by its pid. -/
structure ChildProc where
  pid : Nat
deriving DecidableEq, Repr

/-- `WasiProcess::join_children` from process.rs, with
`control_plane.get_process(pid)` and the awaited `process.join()` of each
resolvable child collapsed into `get_process : Nat → Option JoinResult`.
Snapshots the children list; if empty, returns `none` at once.  Otherwise
it builds one wait per child still present in the registry,
`join_all`-awaits every one of them — each completed wait retains out its
own pid from the children list — and returns the first result. -/
def join_children (children : List ChildProc) (get_process : Nat → Option JoinResult) :
    Option JoinResult × List ChildProc :=
  if children.isEmpty then (none, children)
  else
    let waits := children.filterMap fun child =>
      (get_process child.pid).map fun join => (child.pid, join)
    let remaining := waits.foldl (fun acc w => acc.filter fun a => a.pid ≠ w.1) children
    ((waits.map Prod.snd).head?, remaining)

/-- Best-effort exit code used by `join_any_child`:
`res.unwrap_or_else(|e| e.as_exit_code().unwrap_or_else(|| Errno::Canceled.into()))`. -/
def degrade_join_code (res : JoinResult) : ExitCode :=
  match res with
  | .ok c => c
  | .error e => e.as_exit_code.getD (.errnoCode .canceled)

/-- `WasiProcess::join_any_child` from process.rs.  `winner` selects which
of the pending waits `select_all` resolves first.  An empty children
snapshot fails with `Errno::Child`.  Otherwise the winning wait joins its
child, retains that child's pid out of the children list, and the join
result is degraded to a best-effort exit code.  `none` models the panic of
`select_all` on an empty wait set (children present but none resolvable). -/
def join_any_child (children : List ChildProc) (get_process : Nat → Option JoinResult)
    (winner : Nat) : Option (Except Errno (Option (Nat × ExitCode)) × List ChildProc) :=
  if children.isEmpty then some (.error .child, children)
  else
    let waits := children.filterMap fun child =>
      (get_process child.pid).map fun join => (child.pid, join)
    match waits.get? winner with
    | none => none
    | some (cpid, join) =>
        some (.ok (some (cpid, degrade_join_code join)),
              children.filter fun a => a.pid ≠ cpid)

/-- Thread-spawning state of a process: the `thread_count` field, the
tids in the thread table in creation order, and the control-plane id
counter (see `generate_id`). -/
structure SpawnState where
  thread_count : Nat
  threads : List Nat
  next_id : Nat
deriving DecidableEq, Repr

/-- Modelled from the spec: `control_plane.generate_id()` (the
control-plane registry, not under src/) issues thread identifiers from the
global unified ID space so that they "never equal any process identifier";
modelled as a counter handed out sequentially, kept strictly above the
process id by the theorems' hypothesis. -/
def generate_id (s : SpawnState) : Nat × SpawnState :=
  (s.next_id, { s with next_id := s.next_id + 1 })

/-- `WasiProcess::new_thread` from process.rs (id-assignment path): the
thread is the main thread iff `thread_count == 0` at the time of the call;
the main thread's tid is the process id, every other thread's tid comes
from `control_plane.generate_id()`; the thread is inserted and the counter
incremented. -/
def new_thread (pid : Nat) (s : SpawnState) : Nat × SpawnState :=
  let is_main := s.thread_count = 0
  if is_main then
    (pid, { s with thread_count := s.thread_count + 1, threads := s.threads ++ [pid] })
  else
    let g := generate_id s
    (g.1, { g.2 with thread_count := g.2.thread_count + 1, threads := g.2.threads ++ [g.1] })

/-- `n` successive `new_thread` calls on the same process. -/
def spawnN (pid : Nat) (s : SpawnState) : Nat → SpawnState
  | 0 => s
  | n + 1 => spawnN pid (new_thread pid s).2 n

/-- `WasiProcess::ppid` from process.rs: the optional parent link is an
optional weak reference whose upgrade may fail (`Option (Option Nat)`,
the inner value being the parent's pid); absent link or failed upgrade
yields process id 0
(`.iter().filter_map(upgrade).map(pid).next().unwrap_or(0)`). -/
def ppid (parent : Option (Option Nat)) : Nat :=
  match parent with
  | none => 0
  | some none => 0
  | some (some p) => p

/-- Concrete registry for examples: children 1 and 2 both resolve and
join with exit codes 0 and 1; every other pid is unresolvable. -/
def registryBoth : Nat → Option JoinResult := fun p =>
  if p = 1 then some (.ok (.code 0))
  else if p = 2 then some (.ok (.code 1))
  else none

/-- Concrete registry for examples: only child 1 resolves, joining with
exit code 0. -/
def registryOne : Nat → Option JoinResult := fun p =>
  if p = 1 then some (.ok (.code 0)) else none

/-- Concrete registry for examples: child 1 resolves but its join
machinery errors without a recoverable exit code. -/
def registryErrOne : Nat → Option JoinResult := fun p =>
  if p = 1 then some (.error ⟨none⟩) else none

/-- C2: a `CpuBackoffToken` that was polled once (pending) and then
dropped leaves its waker registration behind.  `CpuBackoffToken::poll`
takes `self.waker_id` but never stores the freshly registered id back into
it, so `Drop` finds `None` and removes nothing: the entry (id 1) inserted
by the poll is still in `cpu_backoff_wakers` after the drop, contradicting
the claim that releasing the token removes its registration. -/
theorem cpu_backoff_drop_leaks_registration :
    (CpuBackoffToken.poll ⟨1000000, none⟩
        ⟨[], 0, 1000000, 0, 30000000000, 500000000⟩ false).inner.cpu_backoff_wakers = [1] ∧
    (CpuBackoffToken.poll ⟨1000000, none⟩
        ⟨[], 0, 1000000, 0, 30000000000, 500000000⟩ false).tok.waker_id = none ∧
    (CpuBackoffToken.drop
        (CpuBackoffToken.poll ⟨1000000, none⟩
          ⟨[], 0, 1000000, 0, 30000000000, 500000000⟩ false).tok
        (CpuBackoffToken.poll ⟨1000000, none⟩
          ⟨[], 0, 1000000, 0, 30000000000, 500000000⟩ false).inner).cpu_backoff_wakers
      = [1] :=
  ⟨rfl, rfl, rfl⟩

/-- C3 counterexample: with the phase already `Snapshot{1}`, an external
`WasiProcessInner::checkpoint(Snapshot{2})` request assigns the phase
unconditionally, producing a direct `Snapshot{1} → Snapshot{2}` transition
— which the claim says never occurs. -/
theorem checkpoint_snapshot_to_snapshot_cex :
    checkpoint_transition (.snapshot 1) (.request (.snapshot 2)) = .snapshot 2 ∧
    WasiProcessCheckpoint.snapshot 1 ≠ WasiProcessCheckpoint.snapshot 2 := by
  decide

/-- C3 (amended): the barrier-internal transition is only
`Snapshot → Execute`; a `Snapshot` phase is only ever produced by an
external checkpoint request carrying exactly that phase (or left in place
by a failed snapshot write), so `Snapshot{t1} → Snapshot{t2}` with
`t1 ≠ t2` occurs only through a second external request. -/
theorem checkpoint_transitions_amended (p : WasiProcessCheckpoint) (op : CheckpointOp)
    (t : Nat) (h : checkpoint_transition p op = .snapshot t) :
    (op = .request (.snapshot t) ∨ (op = .barrierFail ∧ p = .snapshot t)) ∧
    checkpoint_transition (.snapshot t) .barrierComplete = .execute := by
  refine ⟨?_, rfl⟩
  cases op with
  | request forWhat =>
      left
      have : forWhat = .snapshot t := h
      rw [this]
  | barrierComplete => exact absurd h (by simp [checkpoint_transition])
  | barrierFail => exact Or.inr ⟨rfl, h⟩

/-- C3 witness: the amended theorem applied to the concrete
`Snapshot{1} → Snapshot{2}` request. -/
theorem checkpoint_transitions_amended_witness :
    (CheckpointOp.request (.snapshot 2) = CheckpointOp.request (.snapshot 2) ∨
      (CheckpointOp.request (.snapshot 2) = CheckpointOp.barrierFail ∧
        WasiProcessCheckpoint.snapshot 1 = WasiProcessCheckpoint.snapshot 2)) ∧
    checkpoint_transition (.snapshot 2) .barrierComplete = .execute :=
  checkpoint_transitions_amended (.snapshot 1) (.request (.snapshot 2)) 2 rfl

/-- C4: when the last arriving thread's `save_memory_and_snapshot` fails
during a snapshot phase, every thread blocked in the rendezvous wait is
still woken (`notify_all` runs before the trap returns) and the error is
propagated to the thread that performed the failed write. -/
theorem maybe_checkpoint_failure_wakes_all (s : CkptBarrier) (tid e t : Nat)
    (h : s.checkpoint = .snapshot t) :
    (maybe_checkpoint_step s tid true (.error e)).woken = s.blocked ∧
    (maybe_checkpoint_step s tid true (.error e)).state.blocked = [] ∧
    (maybe_checkpoint_step s tid true (.error e)).outcome = .trapped e := by
  obtain ⟨cp, bl⟩ := s
  have h' : cp = .snapshot t := h
  subst h'
  exact ⟨rfl, rfl, rfl⟩

/-- C4 witness: the failure path at a concrete barrier with two blocked
threads. -/
theorem maybe_checkpoint_failure_wakes_all_witness :
    (maybe_checkpoint_step ⟨.snapshot 0, [4, 5]⟩ 3 true (.error 7)).woken = [4, 5] ∧
    (maybe_checkpoint_step ⟨.snapshot 0, [4, 5]⟩ 3 true (.error 7)).state.blocked = [] ∧
    (maybe_checkpoint_step ⟨.snapshot 0, [4, 5]⟩ 3 true (.error 7)).outcome = .trapped 7 :=
  maybe_checkpoint_failure_wakes_all ⟨.snapshot 0, [4, 5]⟩ 3 7 0 rfl

/-- C5: `signal_process` forwards the signal to every child instead of
delivering it to the process's own threads exactly when the waiter counter
is nonzero and the children list is nonempty; in every other case it is
delivered to every thread in the table. -/
theorem signal_process_routing (s : SigState) :
    (signal_process s = .toChildren s.children ↔ 0 < s.waiting ∧ s.children ≠ []) ∧
    (signal_process s = .toThreads s.threads ↔ ¬(0 < s.waiting ∧ s.children ≠ [])) := by
  obtain ⟨w, cs, ts⟩ := s
  unfold signal_process
  cases w <;> cases cs <;> simp

/-- C6: whenever either load of the `cpu_run_tokens` counter (`r1` before
the lock, `r2` after) is positive, `acquire_cpu_backoff_token` returns no
throttling token, for every inner state and clock reading. -/
theorem acquire_cpu_backoff_token_none_of_run_tokens (r1 r2 now : Nat) (s : InnerB)
    (h : 0 < r1 ∨ 0 < r2) :
    (acquire_cpu_backoff_token r1 r2 now s).1 = none := by
  by_cases h1 : 0 < r1
  · simp [acquire_cpu_backoff_token, h1]
  · have h2 : 0 < r2 := h.resolve_left h1
    simp [acquire_cpu_backoff_token, h1, h2]

/-- C6 witness: one held run token suppresses the backoff token for a
state that would otherwise throttle (cool-off deadline long passed,
nonzero backoff duration). -/
theorem acquire_cpu_backoff_token_none_of_run_tokens_witness :
    (acquire_cpu_backoff_token 1 1 9000000000
        ⟨[], 0, 2000000, 5, 30000000000, 500000000⟩).1 = none :=
  acquire_cpu_backoff_token_none_of_run_tokens 1 1 9000000000
    ⟨[], 0, 2000000, 5, 30000000000, 500000000⟩ (Or.inl (by decide))

/-- C10: `ppid` returns process id 0 when the parent link is absent or
when the weak reference to the parent's state record no longer upgrades. -/
theorem ppid_orphan_zero (parent : Option (Option Nat))
    (h : parent = none ∨ parent = some none) : ppid parent = 0 := by
  rcases h with h | h <;> subst h <;> rfl

/-- C10 witness: a dropped parent record (failed upgrade) yields ppid 0. -/
theorem ppid_orphan_zero_witness : ppid (some none) = 0 :=
  ppid_orphan_zero (some none) (Or.inr rfl)

/-- Stored backoff duration after one token completion: doubled and
clamped to the maximum when the token's captured duration still matches
the stored one, unchanged otherwise. -/
theorem backoff_complete_step_time (s : InnerB) (t : Nat) :
    (backoff_complete_step s t).cpu_backoff_time =
      if t = s.cpu_backoff_time then
        (if s.max_cpu_backoff_time < s.cpu_backoff_time * 2 then s.max_cpu_backoff_time
         else s.cpu_backoff_time * 2)
      else s.cpu_backoff_time := by
  by_cases ht : t = s.cpu_backoff_time <;>
    simp [backoff_complete_step, CpuBackoffToken.poll, poll_register_and_wait, ht]

/-- A token completion never changes the configured maximum backoff. -/
theorem backoff_complete_step_max (s : InnerB) (t : Nat) :
    (backoff_complete_step s t).max_cpu_backoff_time = s.max_cpu_backoff_time := by
  by_cases ht : t = s.cpu_backoff_time <;>
    simp [backoff_complete_step, CpuBackoffToken.poll, poll_register_and_wait, ht]

/-- One token completion never decreases the stored backoff duration and
keeps it bounded by the maximum, provided it was bounded before. -/
theorem backoff_step_time_le (s : InnerB) (t : Nat)
    (h : s.cpu_backoff_time ≤ s.max_cpu_backoff_time) :
    s.cpu_backoff_time ≤ (backoff_complete_step s t).cpu_backoff_time ∧
    (backoff_complete_step s t).cpu_backoff_time ≤ s.max_cpu_backoff_time := by
  rw [backoff_complete_step_time]
  split
  · split <;> omega
  · omega

/-- The head of a backoff-time trace is the starting stored duration. -/
theorem backoff_time_trace_head (s : InnerB) (ts : List Nat) :
    (backoff_time_trace s ts).head? = some s.cpu_backoff_time := by
  cases ts <;> rfl

/-- Across any sequence of token completions, the stored backoff duration
is non-decreasing and stays below the configured maximum. -/
theorem backoff_time_trace_chain (ts : List Nat) (s : InnerB)
    (h : s.cpu_backoff_time ≤ s.max_cpu_backoff_time) :
    List.Chain' (· ≤ ·) (backoff_time_trace s ts) ∧
    ∀ x ∈ backoff_time_trace s ts, x ≤ s.max_cpu_backoff_time := by
  induction ts generalizing s with
  | nil =>
      constructor
      · simp [backoff_time_trace]
      · intro x hx
        simp [backoff_time_trace] at hx
        omega
  | cons t ts ih =>
      have hs := backoff_step_time_le s t h
      have hmax := backoff_complete_step_max s t
      have ih2 := ih (backoff_complete_step s t) (by rw [hmax]; exact hs.2)
      constructor
      · show List.Chain' (· ≤ ·)
          (s.cpu_backoff_time :: backoff_time_trace (backoff_complete_step s t) ts)
        rw [List.chain'_cons']
        refine ⟨?_, ih2.1⟩
        intro y hy
        rw [backoff_time_trace_head] at hy
        cases hy
        exact hs.1
      · intro x hx
        have hx2 : x = s.cpu_backoff_time ∨
            x ∈ backoff_time_trace (backoff_complete_step s t) ts := by
          simpa [backoff_time_trace] using hx
        rcases hx2 with rfl | hx2
        · exact h
        · have := ih2.2 x hx2
          rw [hmax] at this
          exact this

/-- The ratchet happens at most once per generation: completing a second
token carrying the same captured duration leaves the stored duration
unchanged. -/
theorem backoff_step_time_idem (s : InnerB) (t : Nat) :
    (backoff_complete_step (backoff_complete_step s t) t).cpu_backoff_time =
      (backoff_complete_step s t).cpu_backoff_time := by
  rw [backoff_complete_step_time (backoff_complete_step s t) t,
      backoff_complete_step_max s t, backoff_complete_step_time s t]
  split_ifs <;> omega

/-- C7: starting from a state whose stored backoff duration is within the
configured maximum, repeated backoff-token completions without an
intervening run-token acquisition produce a non-decreasing duration
sequence bounded by the maximum, the ratchet fires at most once per
generation, and `acquire_cpu_run_token` resets the duration to zero. -/
theorem cpu_backoff_monotone_and_reset (s : InnerB) (ts : List Nat) (t r : Nat)
    (h : s.cpu_backoff_time ≤ s.max_cpu_backoff_time) :
    List.Chain' (· ≤ ·) (backoff_time_trace s ts) ∧
    (∀ x ∈ backoff_time_trace s ts, x ≤ s.max_cpu_backoff_time) ∧
    (backoff_complete_step (backoff_complete_step s t) t).cpu_backoff_time =
      (backoff_complete_step s t).cpu_backoff_time ∧
    (acquire_cpu_run_token r s).inner.cpu_backoff_time = 0 :=
  ⟨(backoff_time_trace_chain ts s h).1, (backoff_time_trace_chain ts s h).2,
   backoff_step_time_idem s t, rfl⟩

/-- C7 witness: a concrete run of three completions from a fresh state
(duration 0, maximum 30 s): the trace 0, 0, 2 ms, 4 ms is non-decreasing,
the repeated-generation completion is a no-op, and a run token resets the
duration. -/
theorem cpu_backoff_monotone_and_reset_witness :
    List.Chain' (· ≤ ·)
      (backoff_time_trace ⟨[], 0, 1000000, 0, 30000000000, 500000000⟩
        [1000000, 2000000, 9]) ∧
    (∀ x ∈ backoff_time_trace ⟨[], 0, 1000000, 0, 30000000000, 500000000⟩
        [1000000, 2000000, 9], x ≤ 30000000000) ∧
    (backoff_complete_step
        (backoff_complete_step ⟨[], 0, 1000000, 0, 30000000000, 500000000⟩ 1000000)
        1000000).cpu_backoff_time =
      (backoff_complete_step ⟨[], 0, 1000000, 0, 30000000000, 500000000⟩
        1000000).cpu_backoff_time ∧
    (acquire_cpu_run_token 0
        ⟨[], 0, 1000000, 0, 30000000000, 500000000⟩).inner.cpu_backoff_time = 0 :=
  cpu_backoff_monotone_and_reset ⟨[], 0, 1000000, 0, 30000000000, 500000000⟩
    [1000000, 2000000, 9] 1000000 0 (by decide)

/-- Once at least one thread exists, every further `new_thread` call takes
its tid from the registry counter: `n` calls append exactly the ids
`next_id, next_id + 1, …` to the thread table. -/
theorem spawnN_nonmain (pid : Nat) (n : Nat) : ∀ s : SpawnState, s.thread_count ≠ 0 →
    spawnN pid s n =
      ⟨s.thread_count + n, s.threads ++ List.range' s.next_id n, s.next_id + n⟩ := by
  induction n with
  | zero =>
      intro s h
      simp [spawnN, List.range']
  | succ n ih =>
      intro s h
      rw [spawnN]
      have hnt : (new_thread pid s).2 =
          ⟨s.thread_count + 1, s.threads ++ [s.next_id], s.next_id + 1⟩ := by
        simp [new_thread, generate_id, h]
      rw [hnt, ih ⟨s.thread_count + 1, s.threads ++ [s.next_id], s.next_id + 1⟩ (by simp)]
      simp [List.range'_succ, SpawnState.mk.injEq]
      omega

/-- C9: starting from a fresh process (empty thread table) whose registry
counter sits strictly above the process id, the first `new_thread` call
assigns tid = pid and every later call assigns a registry-generated tid
different from the process id. -/
theorem new_thread_main_tid (pid g0 n : Nat) (h : pid < g0) :
    (spawnN pid ⟨0, [], g0⟩ (n + 1)).threads.head? = some pid ∧
    ∀ t ∈ (spawnN pid ⟨0, [], g0⟩ (n + 1)).threads.tail, t ≠ pid := by
  have h1 : spawnN pid ⟨0, [], g0⟩ (n + 1) = spawnN pid ⟨1, [pid], g0⟩ n := by
    rw [spawnN]
    rfl
  rw [h1, spawnN_nonmain pid n ⟨1, [pid], g0⟩ (by simp)]
  constructor
  · rfl
  · intro t ht
    have ht2 : t ∈ List.range' g0 n := by simpa using ht
    have := List.mem_range'_1.mp ht2
    omega

/-- C9 witness: pid 7, registry counter starting at 100, three spawned
threads: tids are 7, 100, 101. -/
theorem new_thread_main_tid_witness :
    (spawnN 7 ⟨0, [], 100⟩ 3).threads.head? = some 7 ∧
    ∀ t ∈ (spawnN 7 ⟨0, [], 100⟩ 3).threads.tail, t ≠ 7 :=
  new_thread_main_tid 7 100 2 (by decide)

/-- Projecting the join results out of the per-child wait list gives the
children's join results in order, one per resolvable child. -/
theorem filterMap_pair_map_snd (cs : List ChildProc) (g : Nat → Option JoinResult) :
    (cs.filterMap fun c => (g c.pid).map fun j => (c.pid, j)).map Prod.snd =
      cs.filterMap fun c => g c.pid := by
  induction cs with
  | nil => rfl
  | cons c cs ih =>
      cases hg : g c.pid <;> simp [List.filterMap_cons, hg, ih]

/-- Folding the per-wait `retain` calls over the children list removes
exactly the entries whose pid occurs among the waits. -/
theorem foldl_retain_eq_filter (ws : List (Nat × JoinResult)) (l : List ChildProc) :
    ws.foldl (fun acc w => acc.filter fun a => a.pid ≠ w.1) l =
      l.filter fun a => ws.all fun w => a.pid ≠ w.1 := by
  induction ws generalizing l with
  | nil => simp
  | cons w ws ih =>
      rw [List.foldl_cons, ih, List.filter_filter]
      apply List.filter_congr
      intro a _
      rw [List.all_cons, Bool.and_comm]

/-- After `join_children`'s waits all complete, the children list retains
exactly the children whose pid no longer resolves in the registry. -/
theorem join_children_remaining (cs : List ChildProc) (g : Nat → Option JoinResult) :
    ((cs.filterMap fun c => (g c.pid).map fun j => (c.pid, j)).foldl
        (fun acc w => acc.filter fun a => a.pid ≠ w.1) cs) =
      cs.filter fun a => (g a.pid).isNone := by
  rw [foldl_retain_eq_filter]
  apply List.filter_congr
  intro a ha
  cases hg : g a.pid with
  | some r =>
      have hmem : (a.pid, r) ∈ cs.filterMap fun c => (g c.pid).map fun j => (c.pid, j) :=
        List.mem_filterMap.mpr ⟨a, ha, by rw [hg]; rfl⟩
      simp only [Option.isNone_some]
      rw [List.all_eq_false.mpr ⟨(a.pid, r), hmem, by simp⟩]
  | none =>
      simp only [Option.isNone_none]
      rw [List.all_eq_true]
      intro w hw
      obtain ⟨c, _, hcw⟩ := List.mem_filterMap.mp hw
      cases hgc : g c.pid with
      | none => rw [hgc] at hcw; simp at hcw
      | some r =>
          rw [hgc] at hcw
          have hw1 : w.1 = c.pid := by
            cases hcw
            rfl
          simp only [hw1, decide_eq_true_eq]
          intro hEq
          rw [hEq] at hg
          rw [hg] at hgc
          cases hgc

/-- C1 counterexample: a process with two children, both present in the
registry and both joinable, calls `join_children`; every wait is awaited
(`join_all`) and every completed wait removes its child, so afterwards
zero children remain — not `2 - 1 = 1` as the claim's
"removes exactly that one child" requires. -/
theorem join_children_removes_all_cex :
    (join_children [⟨1⟩, ⟨2⟩] registryBoth).2.length ≠ 2 - 1 := by
  decide

/-- C1 (amended): `join_children` on an empty children list returns the
"no children" result (`none`) without blocking; on a nonempty list it
awaits the join of every child still resolvable in the registry, removes
every such child from the children list (keeping exactly the
unresolvable ones), and returns the first resolvable child's join result
in list order (`none` when no child resolves). -/
theorem join_children_amended (cs : List ChildProc) (g : Nat → Option JoinResult)
    (h : cs ≠ []) :
    join_children [] g = (none, []) ∧
    (join_children cs g).1 = (cs.filterMap fun c => g c.pid).head? ∧
    (join_children cs g).2 = cs.filter fun a => (g a.pid).isNone := by
  have hne : cs.isEmpty = false := by
    cases cs with
    | nil => exact absurd rfl h
    | cons c cs => rfl
  refine ⟨rfl, ?_, ?_⟩
  · unfold join_children
    rw [hne]
    simp only [Bool.false_eq_true, if_false]
    exact congrArg List.head? (filterMap_pair_map_snd cs g)
  · unfold join_children
    rw [hne]
    simp only [Bool.false_eq_true, if_false]
    exact join_children_remaining cs g

/-- C1 witness: for children 1 (resolvable) and 2 (vanished from the
registry), the call returns child 1's result and keeps exactly child 2. -/
theorem join_children_amended_witness :
    join_children [] registryOne = (none, []) ∧
    (join_children [⟨1⟩, ⟨2⟩] registryOne).1 =
      (([⟨1⟩, ⟨2⟩] : List ChildProc).filterMap fun c => registryOne c.pid).head? ∧
    (join_children [⟨1⟩, ⟨2⟩] registryOne).2 =
      ([⟨1⟩, ⟨2⟩] : List ChildProc).filter fun a => (registryOne a.pid).isNone :=
  join_children_amended [⟨1⟩, ⟨2⟩] registryOne (by decide)

/-- C8: `join_any_child` on an empty children snapshot fails with the
distinct `Errno::Child` condition; otherwise, when the race resolves one
of the pending waits, it returns that child's pid together with its exit
outcome, where a join-machinery error is degraded to the error's
best-effort exit code, falling back to the "operation canceled" code,
instead of being propagated. -/
theorem join_any_child_spec (cs : List ChildProc) (g : Nat → Option JoinResult)
    (winner cpid : Nat) (join : JoinResult)
    (hw : (cs.filterMap fun c => (g c.pid).map fun j => (c.pid, j)).get? winner
      = some (cpid, join)) :
    join_any_child [] g winner = some (.error .child, []) ∧
    (cs ≠ [] → join_any_child cs g winner =
      some (.ok (some (cpid, degrade_join_code join)), cs.filter fun a => a.pid ≠ cpid)) ∧
    (∀ e : WasiRuntimeError,
      degrade_join_code (.error e) = e.as_exit_code.getD (.errnoCode .canceled)) := by
  refine ⟨rfl, ?_, fun e => rfl⟩
  intro h
  have hne : cs.isEmpty = false := by
    cases cs with
    | nil => exact absurd rfl h
    | cons c cs => rfl
  unfold join_any_child
  rw [hne]
  simp only [Bool.false_eq_true, if_false]
  rw [hw]

/-- C8 witness: children 1 and 2, child 2 vanished from the registry,
child 1's join machinery errors without a recoverable exit code — the
call returns pid 1 with the canceled exit code. -/
theorem join_any_child_spec_witness :
    join_any_child [] registryErrOne 0 = some (.error .child, []) ∧
    (([⟨1⟩, ⟨2⟩] : List ChildProc) ≠ [] →
      join_any_child [⟨1⟩, ⟨2⟩] registryErrOne 0 =
        some (.ok (some (1, degrade_join_code (.error ⟨none⟩))),
          ([⟨1⟩, ⟨2⟩] : List ChildProc).filter fun a => a.pid ≠ 1)) ∧
    (∀ e : WasiRuntimeError,
      degrade_join_code (.error e) = e.as_exit_code.getD (.errnoCode .canceled)) :=
  join_any_child_spec [⟨1⟩, ⟨2⟩] registryErrOne 0 1 (.error ⟨none⟩) rfl

